import Mathlib

/-!
Shallow embedding of `tinyber/codec.py`, the BER (tag-length-value)
primitive codec layer: a bounds-checked byte-buffer reader (`Buf`), a
chunk-accumulating writer (`Encoder` with `EncoderContext` TLV scopes),
the BER length codec and the minimal two's-complement integer codec.

Conventions of the embedding:
* a Python byte string is a `List Nat` (each entry the `ord` of one char);
* Python exceptions become an explicit error result; since `raise` in the
  source always happens on a live mutable object, an error carries the
  state of that object at the point of the raise (`PyErr × Buf` for reader
  operations, `PyErr × Encoder` for writer bodies);
* Python integers are `Int` (or `Nat` where the source value is provably
  non-negative); `n >> 8` on a Python int is floor division, written
  `n / 256` (`Int` division here is euclidean, which agrees with floor
  for the positive divisor 256), and `n & 0xff` on a Python int is
  `(n % 256).toNat`;
* the source is Python 2 (`iteritems`, `chr`/`ord` on `str`), so `None`
  returned by a fall-through is modelled by `Option`, and the Python 2
  ordering `None < x` (true for every number `x`) / `None > x` (false)
  is modelled by `pyLt` / `pyGt`.
-/

namespace Tinyber

/-- Error taxonomy of `codec.py` (the five declared exception classes),
plus `attributeError` for the Python `AttributeError` that a lookup of a
missing class attribute raises at run time. -/
inductive PyErr where
  | indefiniteLength
  | elementTooLarge
  | underflow
  | unexpectedType
  | constraintViolation
  | attributeError
  deriving DecidableEq

/-- Class/structure flag constants of `class FLAG`. -/
def FLAG.UNIVERSAL : Nat := 0x00

def FLAG.STRUCTURED : Nat := 0x20

def FLAG.APPLICATION : Nat := 0x40

def FLAG.CONTEXT : Nat := 0x80

/-- Universal tag constants of `class TAG`. -/
def TAG.BOOLEAN : Nat := 0x01

def TAG.INTEGER : Nat := 0x02

def TAG.BITSTRING : Nat := 0x03

def TAG.OCTETSTRING : Nat := 0x04

def TAG.NULLTAG : Nat := 0x05

def TAG.OID : Nat := 0x06

def TAG.ENUMERATED : Nat := 0x0A

def TAG.UTF8STRING : Nat := 0x0C

def TAG.SEQUENCE : Nat := 0x10 ||| FLAG.STRUCTURED

def TAG.SET : Nat := 0x11 ||| FLAG.STRUCTURED

/-- The reader `class Buf`: a cursor `pos` and an exclusive bound `end`
over a shared immutable byte sequence `data`. -/
structure Buf where
  data : List Nat
  pos : Nat
  «end» : Nat
  deriving DecidableEq

/-- Python `ord (data[i])` for an in-range index (all uses in the source
are guarded by the bound check `pos + n <= end <= len(data)`). -/
def byteAt (data : List Nat) (i : Nat) : Nat := data.getD i 0

/-- Python slice `data[i:j]`. -/
def pySlice (data : List Nat) (i j : Nat) : List Nat := (data.take j).drop i

/-- Result of a reader operation: either a value together with the updated
reader, or an exception paired with the reader state at the raise. -/
abbrev BufRes (α : Type) := Except (PyErr × Buf) (α × Buf)

/-- `Buf.pop_byte`: bound check first, then read one byte and advance. -/
def Buf.pop_byte (b : Buf) : BufRes Nat :=
  if b.pos + 1 > b.«end» then .error (.underflow, b)
  else .ok (byteAt b.data b.pos, { b with pos := b.pos + 1 })

/-- `Buf.pop`: bound check first, then return the sub-range reader over
`[pos, pos+nbytes)` of the same backing data and advance. -/
def Buf.pop (b : Buf) (nbytes : Nat) : BufRes Buf :=
  if b.pos + nbytes > b.«end» then .error (.underflow, b)
  else .ok (⟨b.data, b.pos, b.pos + nbytes⟩, { b with pos := b.pos + nbytes })

/-- `Buf.pop_bytes`: bound check first, then copy `nbytes` bytes
(`data[pos:pos+nbytes]`) and advance. -/
def Buf.pop_bytes (b : Buf) (nbytes : Nat) : BufRes (List Nat) :=
  if b.pos + nbytes > b.«end» then .error (.underflow, b)
  else .ok (pySlice b.data b.pos (b.pos + nbytes), { b with pos := b.pos + nbytes })

/-- `Buf.done`. -/
def Buf.done (b : Buf) : Bool := b.pos == b.«end»

/-- The `while lol: n = (n << 8) | self.pop_byte()` loop of
`Buf.get_length`.  The source body never decrements `lol`, so the loop
condition never changes: translated literally, each iteration pops one
byte with the same `lol`, and the recursion is on the bytes remaining
before the bound (a successful `pop_byte` strictly shrinks
`end - pos`). -/
def Buf.get_length_loop (b : Buf) (lol : Nat) (n : Nat) : BufRes Nat :=
  if lol = 0 then .ok (n, b)
  else if b.pos + 1 > b.«end» then .error (.underflow, b)
  else Buf.get_length_loop { b with pos := b.pos + 1 } lol
    ((n <<< 8) ||| byteAt b.data b.pos)
termination_by b.«end» - b.pos
decreasing_by simp at *; omega

/-- `Buf.get_length`: short form below `0x80`; exactly `0x80` is the
indefinite-length marker and is rejected; otherwise the low 7 bits give
the length-of-length, rejected above 4, and the loop accumulates. -/
def Buf.get_length (b : Buf) : BufRes Nat :=
  match b.pop_byte with
  | .error e => .error e
  | .ok (val, b1) =>
    if val < 0x80 then .ok (val, b1)
    else if val = 0x80 then .error (.indefiniteLength, b1)
    else
      if val &&& 0x7f > 4 then .error (.elementTooLarge, b1)
      else b1.get_length_loop (val &&& 0x7f) 0

/-- The `while length: n = n << 8 | self.pop_byte(); length -= 1` loop of
`Buf.get_integer` (reached only when the first byte's high bit is clear,
so the accumulator stays non-negative). -/
def Buf.get_integer_loop (b : Buf) (length : Nat) (n : Nat) : BufRes Nat :=
  match length with
  | 0 => .ok (n, b)
  | l + 1 =>
    match b.pop_byte with
    | .error e => .error e
    | .ok (v, b1) => b1.get_integer_loop l ((n <<< 8) ||| v)

/-- `Buf.get_integer`: `0` for a zero length; otherwise pop the first
byte.  When its high bit is set the source computes `n -= 0x100` and then
falls off the end of the function (the `while`/`return` sit in the `else`
branch only), so Python returns `None`: the result is an `Option Int`,
`none` on that path.  When the high bit is clear the remaining
`length - 1` bytes are folded in big-endian and the value returned. -/
def Buf.get_integer (b : Buf) (length : Nat) : BufRes (Option Int) :=
  if length = 0 then .ok (some 0, b)
  else
    match b.pop_byte with
    | .error e => .error e
    | .ok (n, b1) =>
      if n &&& 0x80 ≠ 0 then .ok (none, b1)
      else
        match b1.get_integer_loop (length - 1) n with
        | .error e => .error e
        | .ok (v, b2) => .ok (some (v : Int), b2)

/-- `Buf.check`: pop the tag byte and compare against the expected tag. -/
def Buf.check (b : Buf) (expected : Nat) : BufRes Unit :=
  match b.pop_byte with
  | .error e => .error e
  | .ok (tag, b1) =>
    if tag ≠ expected then .error (.unexpectedType, b1) else .ok ((), b1)

/-- Python 2 comparison `r < x` where `r` may be `None` (`None` orders
below every number in Python 2). -/
def pyLt (r : Option Int) (x : Int) : Bool :=
  match r with
  | none => true
  | some v => v < x

/-- Python 2 comparison `r > x` where `r` may be `None`. -/
def pyGt (r : Option Int) (x : Int) : Bool :=
  match r with
  | none => false
  | some v => x < v

/-- Minimum-bound test of `next_INTEGER`: `min_val is not None and r < min_val`. -/
def violLow (r : Option Int) : Option Int → Bool
  | none => false
  | some m => pyLt r m

/-- Maximum-bound test of `next_INTEGER`: `max_val is not None and r > max_val`. -/
def violHigh (r : Option Int) : Option Int → Bool
  | none => false
  | some m => pyGt r m

/-- The unconstrained prefix of `Buf.next_INTEGER`:
`check(INTEGER)` then `get_integer(get_length())`. -/
def Buf.decode_INTEGER_raw (b : Buf) : BufRes (Option Int) :=
  match b.check TAG.INTEGER with
  | .error e => .error e
  | .ok (_, b1) =>
    match b1.get_length with
    | .error e => .error e
    | .ok (len, b2) => b2.get_integer len

/-- `Buf.next_INTEGER`: decode, then the two `ConstraintViolation`
checks of the source, minimum first. -/
def Buf.next_INTEGER (b : Buf) (min_val max_val : Option Int) : BufRes (Option Int) :=
  match b.decode_INTEGER_raw with
  | .error e => .error e
  | .ok (r, b3) =>
    if violLow r min_val then .error (.constraintViolation, b3)
    else if violHigh r max_val then .error (.constraintViolation, b3)
    else .ok (r, b3)

/-- The unconstrained prefix of `Buf.next_OCTET_STRING`:
`check(OCTETSTRING)` then `pop_bytes(get_length())`. -/
def Buf.decode_OCTET_STRING_raw (b : Buf) : BufRes (List Nat) :=
  match b.check TAG.OCTETSTRING with
  | .error e => .error e
  | .ok (_, b1) =>
    match b1.get_length with
    | .error e => .error e
    | .ok (len, b2) => b2.pop_bytes len

/-- `Buf.next_OCTET_STRING`: decode, then the two size checks of the
source on `len(r)`, minimum first. -/
def Buf.next_OCTET_STRING (b : Buf) (min_size max_size : Option Int) : BufRes (List Nat) :=
  match b.decode_OCTET_STRING_raw with
  | .error e => .error e
  | .ok (r, b3) =>
    if violLow (some (r.length : Int)) min_size then .error (.constraintViolation, b3)
    else if violHigh (some (r.length : Int)) max_size then .error (.constraintViolation, b3)
    else .ok (r, b3)

/-- `Buf.next_BOOLEAN`. -/
def Buf.next_BOOLEAN (b : Buf) : BufRes Bool :=
  match b.check TAG.BOOLEAN with
  | .error e => .error e
  | .ok (_, b1) =>
    match b1.pop_byte with
    | .error e => .error e
    | .ok (v, b2) => .ok (v ≠ 0, b2)

/-- `Buf.next_APPLICATION`: the source pops the tag byte and then
evaluates `tag & FLAG.APPLICAITON` — but `class FLAG` defines no
attribute named `APPLICAITON` (the defined constant is `APPLICATION`),
so the attribute lookup raises `AttributeError` before any bit test or
comparison happens, on every call whose `pop_byte` succeeds. -/
def Buf.next_APPLICATION (b : Buf) : BufRes (Nat × Buf) :=
  match b.pop_byte with
  | .error e => .error e
  | .ok (_, b1) => .error (.attributeError, b1)

/-- The writer `class Encoder`: accumulated chunks `r` (newest first)
and the running total `length` of emitted bytes. -/
structure Encoder where
  r : List (List Nat)
  length : Nat
  deriving DecidableEq

/-- A fresh `Encoder()`. -/
def Encoder.init : Encoder := ⟨[], 0⟩

/-- `Encoder.emit`: `self.r.insert (0, data); self.length += len(data)`. -/
def Encoder.emit (e : Encoder) (data : List Nat) : Encoder :=
  ⟨data :: e.r, e.length + data.length⟩

/-- The `while n: r.insert (0, chr (n & 0xff)); n >>= 8` loop of
`Encoder.emit_length`: the big-endian bytes of `n`, empty for `n = 0`. -/
def emit_length_digits (n : Nat) : List Nat :=
  if n = 0 then []
  else emit_length_digits (n / 256) ++ [n % 256]
termination_by n
decreasing_by exact Nat.div_lt_self (by omega) (by omega)

/-- `Encoder.emit_length`: short form for `n < 0x80`; otherwise the
source computes the leading byte as `0x80 | ((n-1) & 0x7f)` — from the
length value `n` itself, not from the number of length bytes — and
prepends it to the big-endian bytes of `n`. -/
def Encoder.emit_length (e : Encoder) (n : Nat) : Encoder :=
  if n < 0x80 then e.emit [n]
  else e.emit ((0x80 ||| ((n - 1) &&& 0x7f)) :: emit_length_digits n)

/-- The `while 1` loop of `Encoder.emit_integer`.  Each round shifts
`n` right by 8 (floor); if the shifted value equals `n0` the loop stops,
prepending one sign byte when the sign still needs disambiguation;
otherwise it prepends `n0 & 0xff` and continues with the shifted value. -/
def emit_integer_loop (n n0 : Int) (byte : Nat) (i : Nat) (r : List Nat) : List Nat :=
  if n0 = n / 256 then
    if n / 256 = -1 ∧ (byte &&& 0x80 = 0 ∨ i = 0) then 0xff :: r
    else if n / 256 = 0 ∧ byte &&& 0x80 ≠ 0 then 0x00 :: r
    else r
  else
    emit_integer_loop (n / 256) (n / 256) ((n0 % 256).toNat) (i + 1)
      (((n0 % 256).toNat) :: r)
termination_by 2 * n.natAbs + (if n0 = n then 0 else 1)
decreasing_by split_ifs <;> omega

/-- `Encoder.emit_integer`: run the loop from `i = 0`, `n0 = n`,
`byte = 0x80`, `r = []`, and emit the produced byte list. -/
def Encoder.emit_integer (e : Encoder) (n : Int) : Encoder :=
  e.emit (emit_integer_loop n n 0x80 0 [])

/-- `Encoder.done`: `''.join (self.r)`. -/
def Encoder.done (e : Encoder) : List Nat := e.r.flatten

/-- `class EncoderContext`: tied to one tag, remembering the writer's
`length` at scope entry. -/
structure EncoderContext where
  tag : Nat
  pos : Nat
  deriving DecidableEq

/-- `Encoder.TLV`. -/
def Encoder.TLV (e : Encoder) (tag : Nat) : EncoderContext := ⟨tag, e.length⟩

/-- `EncoderContext.__exit__`: emit the length of the content written
since scope entry, then the tag byte (each prepended as a new chunk). -/
def EncoderContext.exit (c : EncoderContext) (e : Encoder) : Encoder :=
  (e.emit_length (e.length - c.pos)).emit [c.tag]

/-- Result of an encoding body: the updated writer, or an exception
paired with the writer state at the raise. -/
abbrev EncRes := Except (PyErr × Encoder) Encoder

/-- Python `with self.TLV(tag): body` semantics: `__enter__` is a no-op;
`__exit__` is invoked on both the normal path and the exceptional path
(with the exception info as arguments, which the source ignores), and
because it returns `None` the exception then propagates. -/
def withTLV (e : Encoder) (tag : Nat) (body : Encoder → EncRes) : EncRes :=
  match body e with
  | .ok e1 => .ok ((e.TLV tag).exit e1)
  | .error (err, e1) => .error (err, (e.TLV tag).exit e1)

/-- `Encoder.emit_INTEGER`: `with self.TLV (TAG.INTEGER): self.emit_integer (n)`. -/
def Encoder.emit_INTEGER (e : Encoder) (n : Int) : EncRes :=
  withTLV e TAG.INTEGER (fun e1 => .ok (e1.emit_integer n))

/-- Round trip of the integer codec: emit `n` with a fresh writer, then
decode the produced bytes with `get_integer` given their length. -/
def integer_roundtrip (n : Int) : BufRes (Option Int) :=
  Buf.get_integer ⟨(Encoder.init.emit_integer n).done, 0,
    (Encoder.init.emit_integer n).done.length⟩ (Encoder.init.emit_integer n).done.length

/-- Round trip of the length codec: emit `n` with a fresh writer, then
decode the produced bytes with `get_length`. -/
def length_roundtrip (n : Nat) : BufRes Nat :=
  Buf.get_length ⟨(Encoder.init.emit_length n).done, 0,
    (Encoder.init.emit_length n).done.length⟩

/-- Writer invariant of the spec: `total_length` equals the summed
length of the stored chunks. -/
def Encoder.inv (e : Encoder) : Prop := e.length = (e.r.map List.length).sum

/-- A body that raises immediately, leaving the writer untouched (used
to exercise the error path of a TLV scope). -/
def raisingBody : Encoder → EncRes := fun e => .error (.underflow, e)

end Tinyber

namespace Tinyber

/-- Shared helper: `Encoder.emit` preserves the writer invariant. -/
theorem Encoder.inv_emit (e : Encoder) (h : e.inv) (data : List Nat) :
    (e.emit data).inv := by
  simp [Encoder.inv, Encoder.emit] at *
  omega

/-- C1: the claim asserts `decode_integer (encode_integer n) = n` for every
representable signed `n`, including the boundary value `-1`.  The encoder is
minimal as claimed (`-1` encodes as the single byte `0xff`), but `get_integer`
falls off the end of the function on any first byte with the high bit set and
returns `None`, so the round trip fails on every negative integer; for
non-negative values (e.g. `128`) it succeeds. -/
theorem c1_integer_roundtrip_fails_on_negatives :
    (Encoder.init.emit_integer (-1)).done = [0xff] ∧
    integer_roundtrip (-1) = .ok (none, ⟨[0xff], 1, 1⟩) ∧
    integer_roundtrip 128 = .ok (some 128, ⟨[0x00, 0x80], 2, 2⟩) := by
  refine ⟨?_, ?_, ?_⟩
  · simp [Encoder.emit_integer, Encoder.init, Encoder.emit, Encoder.done, emit_integer_loop]
  · simp [integer_roundtrip, Encoder.emit_integer, Encoder.init, Encoder.emit, Encoder.done,
      emit_integer_loop, Buf.get_integer, Buf.pop_byte, byteAt]
  · simp [integer_roundtrip, Encoder.emit_integer, Encoder.init, Encoder.emit, Encoder.done,
      emit_integer_loop, Buf.get_integer, Buf.pop_byte, byteAt, Buf.get_integer_loop]

/-- C2: the claim describes `get_integer` as sign-extending a first byte with
the high bit set and folding in the remaining bytes.  In the source the
`while` loop and the `return` are indented under the `else` branch only, so
the negative path falls through and returns `None` after consuming just one
byte: decoding the single byte `0xff` (length 1) yields `None`, not `-1`.
The `length = 0` case and the positive path (including the claim's example of
tag `0x02`, length `0x02`, content `[0x00, 0x80]` decoding to `128`) behave
as described. -/
theorem c2_get_integer_negative_branch_returns_none :
    Buf.get_integer ⟨[0xff], 0, 1⟩ 1 = .ok (none, ⟨[0xff], 1, 1⟩) ∧
    Buf.get_integer ⟨[], 0, 0⟩ 0 = .ok (some 0, ⟨[], 0, 0⟩) ∧
    Buf.next_INTEGER ⟨[0x02, 0x02, 0x00, 0x80], 0, 4⟩ none none
      = .ok (some 128, ⟨[0x02, 0x02, 0x00, 0x80], 4, 4⟩) :=
  ⟨rfl, rfl, rfl⟩

/-- C3: the claim asserts `decode_length (encode_length n) = n` for all
`n ≤ 2^32 - 1`.  The short form behaves as claimed (`n < 0x80` emits the one
byte `n`, which decodes back), but for the long form the source computes the
leading byte as `0x80 ||| ((n - 1) &&& 0x7f)` — a function of the length value
instead of the count of length bytes — so `emit_length 128` produces
`[0xff, 0x80]`, whose leading byte declares 127 length bytes and makes
`get_length` fail with `ElementTooLarge`. -/
theorem c3_length_roundtrip_fails_long_form :
    (Encoder.init.emit_length 5).done = [5] ∧
    length_roundtrip 5 = .ok (5, ⟨[5], 1, 1⟩) ∧
    (Encoder.init.emit_length 128).done = [0xff, 0x80] ∧
    length_roundtrip 128 = .error (.elementTooLarge, ⟨[0xff, 0x80], 1, 2⟩) := by
  have h : (255 : Nat) &&& 127 = 127 := by decide
  refine ⟨?_, ?_, ?_, ?_⟩
  · simp [Encoder.emit_length, Encoder.init, Encoder.emit, Encoder.done]
  · simp [length_roundtrip, Encoder.emit_length, Encoder.init, Encoder.emit, Encoder.done,
      Buf.get_length, Buf.pop_byte, byteAt]
  · simp [Encoder.emit_length, Encoder.init, Encoder.emit, Encoder.done, emit_length_digits]
  · simp [length_roundtrip, Encoder.emit_length, Encoder.init, Encoder.emit, Encoder.done,
      emit_length_digits, Buf.get_length, Buf.pop_byte, byteAt, h]

/-- C4: the claim says a long-form length reads exactly `k` further bytes and
in particular `[0x82, 0x01, 0x00]` decodes to `256`.  The source's loop
`while lol: n = (n << 8) | self.pop_byte()` never decrements `lol`, so it
keeps popping until the bound and raises `Underflow` instead of returning:
on `[0x82, 0x01, 0x00]` the result is `Underflow`, not `256`.  The
`ElementTooLarge` guard for `k > 4` does behave as claimed. -/
theorem c4_get_length_never_returns_long_form :
    Buf.get_length ⟨[0x82, 0x01, 0x00], 0, 3⟩
      = .error (.underflow, ⟨[0x82, 0x01, 0x00], 3, 3⟩) ∧
    Buf.get_length ⟨[0x85, 0x01], 0, 2⟩
      = .error (.elementTooLarge, ⟨[0x85, 0x01], 1, 2⟩) := by
  have h2 : (130 : Nat) &&& 127 = 2 := by decide
  have h5 : (133 : Nat) &&& 127 = 5 := by decide
  refine ⟨?_, ?_⟩
  · simp [Buf.get_length, Buf.pop_byte, byteAt, h2, Buf.get_length_loop]
  · simp [Buf.get_length, Buf.pop_byte, byteAt, h5]

/-- C5: for a reader satisfying `pos ≤ end ≤ len data`, each of `pop_byte`,
`pop n`, `pop_bytes n` fails with `Underflow` whenever it requests more bytes
than remain before `end`, and on success touches only bytes at indices in
`[pos, pos + n) ⊆ [pos, end)`: `pop_byte` returns the byte at `pos < end`,
`pop n` returns a sub-reader whose bound `pos + n` stays within `end` (and
reads nothing itself), and `pop_bytes n` returns exactly the slice
`data[pos : pos + n]` with `pos + n ≤ end`. -/
theorem c5_bounds_safety (b : Buf) (n : Nat)
    (hpe : b.pos ≤ b.«end») (hed : b.«end» ≤ b.data.length) :
    (b.«end» - b.pos < 1 → b.pop_byte = .error (.underflow, b)) ∧
    (b.«end» - b.pos < n → b.pop n = .error (.underflow, b)) ∧
    (b.«end» - b.pos < n → b.pop_bytes n = .error (.underflow, b)) ∧
    (∀ v b1, b.pop_byte = .ok (v, b1) →
      b.pos < b.«end» ∧ v = byteAt b.data b.pos ∧ b1 = { b with pos := b.pos + 1 }) ∧
    (∀ s b1, b.pop n = .ok (s, b1) →
      b.pos + n ≤ b.«end» ∧ s.data = b.data ∧ s.pos = b.pos ∧ s.«end» = b.pos + n ∧
      s.«end» ≤ b.«end» ∧ b1 = { b with pos := b.pos + n }) ∧
    (∀ xs b1, b.pop_bytes n = .ok (xs, b1) →
      b.pos + n ≤ b.«end» ∧ xs = pySlice b.data b.pos (b.pos + n) ∧
      b1 = { b with pos := b.pos + n }) := by
  refine ⟨?_, ?_, ?_, ?_, ?_, ?_⟩
  · intro hlt
    simp only [Buf.pop_byte]
    rw [if_pos (by omega)]
  · intro hlt
    simp only [Buf.pop]
    rw [if_pos (by omega)]
  · intro hlt
    simp only [Buf.pop_bytes]
    rw [if_pos (by omega)]
  · intro v b1 hcall
    simp only [Buf.pop_byte] at hcall
    split_ifs at hcall with hc
    all_goals simp at hcall
    obtain ⟨h1, h2⟩ := hcall
    subst h2
    exact ⟨by omega, h1.symm, rfl⟩
  · intro s b1 hcall
    simp only [Buf.pop] at hcall
    split_ifs at hcall with hc
    all_goals simp at hcall
    obtain ⟨h1, h2⟩ := hcall
    subst h1
    subst h2
    exact ⟨by omega, rfl, rfl, rfl, (by omega : b.pos + n ≤ b.«end»), rfl⟩
  · intro xs b1 hcall
    simp only [Buf.pop_bytes] at hcall
    split_ifs at hcall with hc
    all_goals simp at hcall
    obtain ⟨h1, h2⟩ := hcall
    subst h2
    exact ⟨by omega, h1.symm, rfl⟩

/-- Witness for C5 at a concrete reader: requesting 5 bytes when 2 remain
fails with `Underflow`. -/
theorem c5_bounds_safety_witness :
    (⟨[10, 20], 0, 2⟩ : Buf).pop_bytes 5 = .error (.underflow, ⟨[10, 20], 0, 2⟩) :=
  (c5_bounds_safety ⟨[10, 20], 0, 2⟩ 5 (by decide) (by decide)).2.2.1 (by decide)

/-- C6: the claim says `next_APPLICATION` fails with `UnexpectedType` exactly
when bit `0x40` is clear and otherwise returns `(tag &&& 0x1f, pop length)`.
The source tests `tag & FLAG.APPLICAITON`, but `class FLAG` has no attribute
of that (misspelled) name, so every call raises Python's `AttributeError`
right after popping the tag byte — both when the APPLICATION bit is set
(`0x41`, where the claim expects success) and when it is clear (`0x01`,
where the claim expects `UnexpectedType`). -/
theorem c6_next_APPLICATION_raises_attribute_error :
    Buf.next_APPLICATION ⟨[0x41, 0x00], 0, 2⟩
      = .error (.attributeError, ⟨[0x41, 0x00], 1, 2⟩) ∧
    Buf.next_APPLICATION ⟨[0x01], 0, 1⟩
      = .error (.attributeError, ⟨[0x01], 1, 1⟩) :=
  ⟨rfl, rfl⟩

/-- C7 counterexample: the claim says that when an error is raised inside an
open TLV scope no length and no tag byte are emitted while it propagates.
With a fresh writer, tag `0x02`, and a body that raises `Underflow`
immediately, the propagated error state is a writer holding the two chunks
`[0x02]` (tag) and `[0x00]` (length) — not the untouched writer the claim
requires: Python's `with` runs `__exit__` on the exception path too, and this
`__exit__` finalizes unconditionally. -/
theorem c7_skip_finalization_counterexample :
    withTLV Encoder.init 0x02 raisingBody = .error (.underflow, ⟨[[0x02], [0x00]], 2⟩) ∧
    withTLV Encoder.init 0x02 raisingBody ≠ .error (.underflow, Encoder.init) := by
  refine ⟨rfl, ?_⟩
  intro hcontra
  simp [withTLV, raisingBody, EncoderContext.exit, Encoder.TLV, Encoder.emit_length,
    Encoder.emit, Encoder.init] at hcontra

/-- C7 (amended): when the body of a TLV scope raises, finalization is not
skipped — `__exit__` still runs, emitting the length of the content written
since scope entry and then the tag byte onto the writer state carried by the
propagating error. -/
theorem c7_exit_runs_on_error (e : Encoder) (tag : Nat) (body : Encoder → EncRes)
    (err : PyErr) (e1 : Encoder) (h : body e = .error (err, e1)) :
    withTLV e tag body = .error (err, (e1.emit_length (e1.length - e.length)).emit [tag]) := by
  simp [withTLV, h, EncoderContext.exit, Encoder.TLV]

/-- Witness for the amended C7 at a concrete scope: the propagated error
carries the finalized writer. -/
theorem c7_exit_runs_on_error_witness :
    withTLV Encoder.init 0x02 raisingBody
      = .error (.underflow, (Encoder.init.emit_length (Encoder.init.length -
          Encoder.init.length)).emit [0x02]) :=
  c7_exit_runs_on_error Encoder.init 0x02 raisingBody .underflow Encoder.init rfl

/-- C8: whenever the underlying decode of `next_INTEGER` yields an integer
`r` (respectively the decode of `next_OCTET_STRING` yields a byte string
`bs`), a supplied minimum strictly above the value or a supplied maximum
strictly below it makes the call fail with `ConstraintViolation`, while a
value equal to the supplied bound on both sides is accepted and returned. -/
theorem c8_constraint_enforcement (b bo : Buf) (r : Int) (bs : List Nat) (bi bo1 : Buf)
    (lo hi slo shi : Option Int)
    (hI : b.decode_INTEGER_raw = .ok (some r, bi))
    (hO : bo.decode_OCTET_STRING_raw = .ok (bs, bo1)) :
    (∀ m, lo = some m → r < m → b.next_INTEGER lo hi = .error (.constraintViolation, bi)) ∧
    (∀ m, hi = some m → m < r → b.next_INTEGER lo hi = .error (.constraintViolation, bi)) ∧
    (b.next_INTEGER (some r) (some r) = .ok (some r, bi)) ∧
    (∀ m, slo = some m → (bs.length : Int) < m →
      bo.next_OCTET_STRING slo shi = .error (.constraintViolation, bo1)) ∧
    (∀ m, shi = some m → m < (bs.length : Int) →
      bo.next_OCTET_STRING slo shi = .error (.constraintViolation, bo1)) ∧
    (bo.next_OCTET_STRING (some (bs.length : Int)) (some (bs.length : Int)) = .ok (bs, bo1)) := by
  refine ⟨?_, ?_, ?_, ?_, ?_, ?_⟩
  · intro m hm hr
    subst hm
    simp [Buf.next_INTEGER, hI, violLow, pyLt, hr]
  · intro m hm hr
    subst hm
    simp only [Buf.next_INTEGER, hI]
    split_ifs with h1 h2
    · rfl
    · rfl
    · exact absurd (by simp [violHigh, pyGt, hr]) h2
  · simp [Buf.next_INTEGER, hI, violLow, violHigh, pyLt, pyGt]
  · intro m hm hr
    subst hm
    simp [Buf.next_OCTET_STRING, hO, violLow, pyLt, hr]
  · intro m hm hr
    subst hm
    simp only [Buf.next_OCTET_STRING, hO]
    split_ifs with h1 h2
    · rfl
    · rfl
    · exact absurd (by simp [violHigh, pyGt, hr]) h2
  · simp [Buf.next_OCTET_STRING, hO, violLow, violHigh, pyLt, pyGt]

/-- Witness for C8 at concrete buffers: an INTEGER decoding to `5` is
rejected against a minimum of `6`, and an OCTET STRING of length `2` is
accepted when both size bounds equal `2`. -/
theorem c8_constraint_enforcement_witness :
    Buf.next_INTEGER ⟨[0x02, 0x01, 0x05], 0, 3⟩ (some 6) none
      = .error (.constraintViolation, ⟨[0x02, 0x01, 0x05], 3, 3⟩) ∧
    Buf.next_OCTET_STRING ⟨[0x04, 0x02, 0xaa, 0xbb], 0, 4⟩ (some 2) (some 2)
      = .ok ([0xaa, 0xbb], ⟨[0x04, 0x02, 0xaa, 0xbb], 4, 4⟩) :=
  ⟨(c8_constraint_enforcement ⟨[0x02, 0x01, 0x05], 0, 3⟩ ⟨[0x04, 0x02, 0xaa, 0xbb], 0, 4⟩
      5 [0xaa, 0xbb] ⟨[0x02, 0x01, 0x05], 3, 3⟩ ⟨[0x04, 0x02, 0xaa, 0xbb], 4, 4⟩
      (some 6) none (some 2) (some 2) rfl rfl).1 6 rfl (by norm_num),
   (c8_constraint_enforcement ⟨[0x02, 0x01, 0x05], 0, 3⟩ ⟨[0x04, 0x02, 0xaa, 0xbb], 0, 4⟩
      5 [0xaa, 0xbb] ⟨[0x02, 0x01, 0x05], 3, 3⟩ ⟨[0x04, 0x02, 0xaa, 0xbb], 4, 4⟩
      (some 6) none (some 2) (some 2) rfl rfl).2.2.2.2.2⟩

/-- C9: for a writer satisfying `length = sum of chunk lengths`, every
operation (`emit`, `emit_length`, `emit_integer`, and the TLV scope close)
preserves the invariant, `emit` places its chunk before all previously
emitted chunks, and `done` is the concatenation of the chunks in stored
order. -/
theorem c9_writer_invariant (e : Encoder) (h : e.inv) (data : List Nat) (n : Nat)
    (m : Int) (c : EncoderContext) :
    (e.emit data).inv ∧ (e.emit data).r = data :: e.r ∧
    (e.emit_length n).inv ∧ (e.emit_integer m).inv ∧ (c.exit e).inv ∧
    e.done = e.r.flatten := by
  refine ⟨Encoder.inv_emit e h data, rfl, ?_, Encoder.inv_emit e h _, ?_, rfl⟩
  · unfold Encoder.emit_length
    split_ifs <;> exact Encoder.inv_emit e h _
  · unfold EncoderContext.exit
    refine Encoder.inv_emit _ ?_ _
    unfold Encoder.emit_length
    split_ifs <;> exact Encoder.inv_emit e h _

/-- Witness for C9 at a fresh writer: emitting a two-byte chunk keeps the
invariant and stores the chunk first. -/
theorem c9_writer_invariant_witness :
    (Encoder.init.emit [1, 2]).inv ∧ (Encoder.init.emit [1, 2]).r = [[1, 2]] :=
  ⟨(c9_writer_invariant Encoder.init (by simp [Encoder.inv, Encoder.init]) [1, 2] 0 0
      ⟨0, 0⟩).1,
   (c9_writer_invariant Encoder.init (by simp [Encoder.inv, Encoder.init]) [1, 2] 0 0
      ⟨0, 0⟩).2.1⟩

/-- C10: when `pop_byte`, `pop n` or `pop_bytes n` fails, the failure is
`Underflow` and the reader state carried by the raised exception is exactly
the state before the call — the bounds check precedes any cursor advance, so
`pos` and `end` are unchanged. -/
theorem c10_underflow_leaves_state (b : Buf) (n : Nat) :
    (∀ err b1, b.pop_byte = .error (err, b1) →
      err = .underflow ∧ b1.pos = b.pos ∧ b1.«end» = b.«end») ∧
    (∀ err b1, b.pop n = .error (err, b1) →
      err = .underflow ∧ b1.pos = b.pos ∧ b1.«end» = b.«end») ∧
    (∀ err b1, b.pop_bytes n = .error (err, b1) →
      err = .underflow ∧ b1.pos = b.pos ∧ b1.«end» = b.«end») := by
  refine ⟨?_, ?_, ?_⟩ <;>
  · intro err b1 hcall
    first
      | simp only [Buf.pop_byte] at hcall
      | simp only [Buf.pop] at hcall
      | simp only [Buf.pop_bytes] at hcall
    split_ifs at hcall with hc
    all_goals simp at hcall
    obtain ⟨h1, h2⟩ := hcall
    subst h2
    exact ⟨h1.symm, rfl, rfl⟩

/-- Witness for C10 at a concrete reader: a failing `pop 3` leaves the
cursor and bound as they were. -/
theorem c10_underflow_leaves_state_witness :
    PyErr.underflow = PyErr.underflow ∧
    Buf.pos ⟨[9], 0, 1⟩ = Buf.pos ⟨[9], 0, 1⟩ ∧
    Buf.«end» ⟨[9], 0, 1⟩ = Buf.«end» ⟨[9], 0, 1⟩ :=
  (c10_underflow_leaves_state ⟨[9], 0, 1⟩ 3).2.1 PyErr.underflow ⟨[9], 0, 1⟩ rfl

end Tinyber
